import Mathlib

/-!
Shallow embedding of `teamcity-vcs.py`, a TeamCity REST reporting and
round-trip update tool.  The remote server is modelled as an explicit,
immutable-per-request environment `Env`; HTTP effects of the mutating
functions are recorded as a trace of `NetOp` values together with the
updated environment.  Python truthiness on optional strings (`if x:`)
is modelled by `truthyOpt`, JSON `None` by `Option.none`.
-/

/-- An element of the `project` array returned by `GET /projects`. -/
structure Project where
  id : String
  name : String
deriving DecidableEq, Repr

/-- An element of the `buildType` array of `GET /projects/id:{id}/buildTypes`. -/
structure BuildType where
  id : String
  name : String
deriving DecidableEq, Repr

/-- One `vcs-root-entry`; `entry.get("vcs-root", {}).get("id")` may be absent. -/
structure VcsRootEntry where
  vcsRootId : Option String
deriving DecidableEq, Repr

/-- One element of a VCS root's `properties.property` array. -/
structure VcsProperty where
  name : String
  value : String
deriving DecidableEq, Repr

/-- Body of `GET /vcs-roots/id:{id}`: the `name` field may be absent. -/
structure VcsRootData where
  name : Option String
  properties : List VcsProperty
deriving DecidableEq, Repr

/-- The remote TeamCity server, as seen through the REST endpoints the
script consumes.  `vcsRoots id = none` models a 404 on
`GET /vcs-roots/id:{id}`; `buildTypeExists` models `GET /buildTypes/id:{id}`. -/
structure Env where
  projects : List Project
  buildTypes : String → List BuildType
  vcsRootEntries : String → List VcsRootEntry
  vcsRoots : String → Option VcsRootData
  buildTypeExists : String → Bool

/-- Python truthiness of an optional string: `None` and `""` are falsy. -/
def truthyOpt : Option String → Bool
  | none => false
  | some s => !s.isEmpty

/-- `get_vcs_root_details`: returns `(vcs_name, fetch_url, default_branch)`,
all `None` when the root is missing.  The property scan keeps the last
`url` / `branch` value, mirroring the Python loop. -/
def get_vcs_root_details (env : Env) (vcs_root_id : String) :
    Option String × Option String × Option String :=
  match env.vcsRoots vcs_root_id with
  | none => (none, none, none)
  | some data =>
    let fetch_url := data.properties.foldl
      (fun acc p => if p.name = "url" then some p.value else acc) none
    let default_branch := data.properties.foldl
      (fun acc p => if p.name = "branch" then some p.value else acc) none
    (data.name, fetch_url, default_branch)

/-- `set.add`: Python set insertion, modelled on duplicate-free lists. -/
def setAdd {α : Type} [DecidableEq α] (s : List α) (x : α) : List α :=
  if x ∈ s then s else s ++ [x]

/-- A `(build_id, build_name, vcs_root_name, vcs_root_id)` report tuple. -/
abbrev BuildTuple := String × String × String × String

/-- A `(project_id, project_name, vcs_root_name, vcs_root_id, fetch_url,
default_branch)` report tuple; the last two are `None`-able JSON values. -/
abbrev ProjectTuple := String × String × String × String × Option String × Option String

instance : DecidableEq ProjectTuple := instDecidableEqProd

/-- The tuple (if any) one VCS root entry contributes for a build type:
the entry's root id must be truthy and the root must resolve to a truthy
name (`if vcs_id:` / `if vcs_name:` in the source). -/
def buildEntryTuple (env : Env) (build_id build_name : String)
    (entry : VcsRootEntry) : Option BuildTuple :=
  if truthyOpt entry.vcsRootId then
    let vcs_id := entry.vcsRootId.getD ""
    let vcs_name_opt := (get_vcs_root_details env vcs_id).1
    if truthyOpt vcs_name_opt then
      some (build_id, build_name, vcs_name_opt.getD "", vcs_id)
    else none
  else none

/-- Body of the `for entry in vcs_entries` loop of `get_all_build_details`. -/
def buildEntryStep (env : Env) (build_id build_name : String)
    (acc : List BuildTuple) (entry : VcsRootEntry) : List BuildTuple :=
  if truthyOpt entry.vcsRootId then
    let vcs_id := entry.vcsRootId.getD ""
    let vcs_name_opt := (get_vcs_root_details env vcs_id).1
    if truthyOpt vcs_name_opt then
      setAdd acc (build_id, build_name, vcs_name_opt.getD "", vcs_id)
    else acc
  else acc

/-- Body of the `for build_type in build_types` loop of
`get_all_build_details`: a build type with a non-empty entry list folds
its entries in, an empty one adds the `("No VCS Root", "None")` sentinel. -/
def buildTypeStep (env : Env) (acc : List BuildTuple) (build_type : BuildType) :
    List BuildTuple :=
  let build_id := build_type.id
  let build_name := build_type.name
  let vcs_entries := env.vcsRootEntries build_id
  if vcs_entries.isEmpty then
    setAdd acc (build_id, build_name, "No VCS Root", "None")
  else
    vcs_entries.foldl (buildEntryStep env build_id build_name) acc

/-- Body of the `for project in all_projects` loop of `get_all_build_details`. -/
def buildProjectStep (env : Env) (acc : List BuildTuple) (project : Project) :
    List BuildTuple :=
  (env.buildTypes project.id).foldl (buildTypeStep env) acc

/-- `get_all_build_details`: walks projects → build types → VCS root
entries into a set of `BuildTuple`s, adding a `("No VCS Root", "None")`
sentinel for a build type whose entry list is empty. -/
def get_all_build_details (env : Env) : List BuildTuple :=
  env.projects.foldl (buildProjectStep env) []

/-- The tuple (if any) one VCS root entry contributes for a project. -/
def projectEntryTuple (env : Env) (project_id project_name : String)
    (entry : VcsRootEntry) : Option ProjectTuple :=
  if truthyOpt entry.vcsRootId then
    let vcs_id := entry.vcsRootId.getD ""
    let details := get_vcs_root_details env vcs_id
    if truthyOpt details.1 then
      some (project_id, project_name, details.1.getD "", vcs_id, details.2.1, details.2.2)
    else none
  else none

/-- Body of the entry loop of `get_all_projects_with_vcs_roots`; the
Boolean component is the `vcs_roots_found` flag. -/
def projectEntryStep (env : Env) (project_id project_name : String)
    (st : List ProjectTuple × Bool) (entry : VcsRootEntry) :
    List ProjectTuple × Bool :=
  if truthyOpt entry.vcsRootId then
    let vcs_id := entry.vcsRootId.getD ""
    let details := get_vcs_root_details env vcs_id
    if truthyOpt details.1 then
      (setAdd st.1 (project_id, project_name, details.1.getD "", vcs_id, details.2.1, details.2.2),
       true)
    else st
  else st

/-- Body of the build-type loop of `get_all_projects_with_vcs_roots`. -/
def projectBuildTypeStep (env : Env) (project_id project_name : String)
    (st : List ProjectTuple × Bool) (build_type : BuildType) :
    List ProjectTuple × Bool :=
  (env.vcsRootEntries build_type.id).foldl
    (projectEntryStep env project_id project_name) st

/-- Body of the project loop of `get_all_projects_with_vcs_roots`: runs the
build-type fold with the `vcs_roots_found` flag starting `false`, then adds
the sentinel row when the flag is still unset. -/
def projectStep (env : Env) (acc : List ProjectTuple) (project : Project) :
    List ProjectTuple :=
  let project_id := project.id
  let project_name := project.name
  let st := (env.buildTypes project_id).foldl
    (projectBuildTypeStep env project_id project_name) (acc, false)
  if st.2 then st.1
  else setAdd st.1
    (project_id, project_name, "No VCS Root", "None", some "None", some "None")

/-- `get_all_projects_with_vcs_roots`: like the builds aggregator but with
a per-project `vcs_roots_found` flag; the sentinel row
`("No VCS Root", "None", "None", "None")` is added only when no entry of
any build type of the project produced a tuple. -/
def get_all_projects_with_vcs_roots (env : Env) : List ProjectTuple :=
  env.projects.foldl (projectStep env) []

/-- Python tuple ordering on `BuildTuple`s, as used by `sorted()` in the
builds export mode: lexicographic by `(build_id, build_name,
vcs_root_name, vcs_root_id)` as strings. -/
def tupleLe (a b : BuildTuple) : Bool :=
  decide (a.1 < b.1) ||
    (decide (a.1 = b.1) && (decide (a.2.1 < b.2.1) ||
      (decide (a.2.1 = b.2.1) && (decide (a.2.2.1 < b.2.2.1) ||
        (decide (a.2.2.1 = b.2.2.1) && decide (a.2.2.2 ≤ b.2.2.2))))))

/-- The same tuples under Mathlib's lexicographic product order, used to
transfer transitivity and totality to `tupleLe`. -/
def toLexTuple (t : BuildTuple) : Lex (String × Lex (String × Lex (String × String))) :=
  toLex (t.1, toLex (t.2.1, toLex (t.2.2.1, t.2.2.2)))

/-- `sorted(build_details)` in the builds branch of `main`. -/
def sorted_build_details (env : Env) : List BuildTuple :=
  (get_all_build_details env).mergeSort tupleLe

/-- The data rows the builds export writes: per sorted tuple, the columns
`[build_id, build_name, vcs_root_id, vcs_root_name]` — the id column is
printed before the name column even though the sort key compares the name
first. -/
def builds_csv_rows (env : Env) : List (List String) :=
  (sorted_build_details env).map (fun t => [t.1, t.2.1, t.2.2.2, t.2.2.1])

/-- Full builds-mode CSV: header row then data rows. -/
def builds_csv_output (env : Env) : List (List String) :=
  ["Build ID", "Build Name", "VCS Root ID", "VCS Root Name"] :: builds_csv_rows env

/-- Order on optional CSV cells used by the projects export sort; `none`
sorts first.  (Python's `sorted` would raise on a `None`-versus-string
comparison, but two aggregated tuples agreeing on the first four fields
always coincide, so such a comparison is never actually needed.) -/
def optStrLt : Option String → Option String → Bool
  | none, none => false
  | none, some _ => true
  | some _, none => false
  | some a, some b => decide (a < b)

/-- Non-strict companion of `optStrLt`. -/
def optStrLe : Option String → Option String → Bool
  | none, _ => true
  | some _, none => false
  | some a, some b => decide (a ≤ b)

/-- Python tuple ordering on `ProjectTuple`s for the projects export. -/
def projTupleLe (a b : ProjectTuple) : Bool :=
  decide (a.1 < b.1) ||
    (decide (a.1 = b.1) && (decide (a.2.1 < b.2.1) ||
      (decide (a.2.1 = b.2.1) && (decide (a.2.2.1 < b.2.2.1) ||
        (decide (a.2.2.1 = b.2.2.1) && (decide (a.2.2.2.1 < b.2.2.2.1) ||
          (decide (a.2.2.2.1 = b.2.2.2.1) &&
            (optStrLt a.2.2.2.2.1 b.2.2.2.2.1 ||
              ((a.2.2.2.2.1 == b.2.2.2.2.1) &&
                optStrLe a.2.2.2.2.2 b.2.2.2.2.2)))))))))

/-- `csv.writer` renders a `None` cell as the empty string. -/
def optCell : Option String → String
  | none => ""
  | some s => s

/-- Full projects-mode CSV: header row then sorted data rows with columns
`[project_id, project_name, vcs_root_id, vcs_root_name, fetch_url,
default_branch]`. -/
def projects_csv_output (env : Env) : List (List String) :=
  ["Project ID", "Project Name", "VCS Root ID", "VCS Root Name",
    "Fetch URL", "Default Branch"] ::
  ((get_all_projects_with_vcs_roots env).mergeSort projTupleLe).map
    (fun t => [t.1, t.2.1, t.2.2.2.1, t.2.2.1,
      optCell t.2.2.2.2.1, optCell t.2.2.2.2.2])

/-! ### CSV input model -/

/-- An input CSV as `csv.DictReader` sees it: a header line of field
names and raw data rows. -/
structure CsvFile where
  header : List String
  rows : List (List String)
deriving DecidableEq, Repr

/-- `row[field]` on a `csv.DictReader` row dict: the cell of the last
header occurrence of `field` (later duplicate field names override
earlier ones), `none` (the `restval`) when the row is shorter than the
header, `none` when the field is not in the header at all. -/
def dictGet (header row : List String) (field : String) : Option String :=
  match (header.enum.map (fun p => (p.2, row[p.1]?))).reverse.find?
      (fun p => p.1 == field) with
  | some p => p.2
  | none => none

/-- `any(row.values())`: some dict value is truthy.  The first disjunct
models the `restkey` entry: cells beyond the header length land in a list
under the `None` key, and a non-empty list is truthy regardless of its
contents. -/
def rowAnyTruthy (header row : List String) : Bool :=
  decide (header.length < row.length) ||
    header.any (fun f => truthyOpt (dictGet header row f))

/-- Required header columns of `read_projects_csv`. -/
def requiredProjectFields : List String :=
  ["Project ID", "VCS Root ID", "Fetch URL", "Default Branch"]

/-- Required header columns of `read_builds_csv`. -/
def requiredBuildFields : List String := ["Build ID", "VCS Root ID"]

/-- `[field for field in required_fields if field not in reader.fieldnames]`. -/
def missingFields (required header : List String) : List String :=
  required.filter (fun f => !header.contains f)

/-- One validated row of a project-update CSV. -/
structure ProjectUpdateRow where
  project_id : String
  vcs_root_id : String
  fetch_url : Option String
  default_branch : Option String
deriving DecidableEq, Repr

/-- One validated row of a build-assign CSV. -/
structure BuildUpdateRow where
  build_id : String
  vcs_root_id : String
deriving DecidableEq, Repr

/-- Result of `read_projects_csv`: the accepted rows, the missing-column
report (printed to stderr in the source) and the rows skipped with a
warning. -/
structure ReadProjectsResult where
  data : List ProjectUpdateRow
  missing : List String
  warned : List (List String)
deriving DecidableEq, Repr

/-- Result of `read_builds_csv`. -/
structure ReadBuildsResult where
  data : List BuildUpdateRow
  missing : List String
  warned : List (List String)
deriving DecidableEq, Repr

/-- Body of the row loop of `read_projects_csv`: an all-falsy row is
skipped silently, a row with a falsy `Project ID` or `VCS Root ID` is
skipped with a warning, any other row is appended. -/
def projectRowStep (header : List String) (r : ReadProjectsResult)
    (row : List String) : ReadProjectsResult :=
  if !rowAnyTruthy header row then r
  else if !truthyOpt (dictGet header row "Project ID") ||
      !truthyOpt (dictGet header row "VCS Root ID") then
    { r with warned := r.warned ++ [row] }
  else
    { r with data := r.data ++ [{
        project_id := (dictGet header row "Project ID").getD ""
        vcs_root_id := (dictGet header row "VCS Root ID").getD ""
        fetch_url := dictGet header row "Fetch URL"
        default_branch := dictGet header row "Default Branch" }] }

/-- `read_projects_csv`: `none` models a `FileNotFoundError` (empty
result); a header missing required columns short-circuits to an empty
result carrying the missing-column report; otherwise the rows are folded
through `projectRowStep`. -/
def read_projects_csv (file : Option CsvFile) : ReadProjectsResult :=
  match file with
  | none => ⟨[], [], []⟩
  | some c =>
    let missing := missingFields requiredProjectFields c.header
    if !missing.isEmpty then ⟨[], missing, []⟩
    else c.rows.foldl (projectRowStep c.header) ⟨[], [], []⟩

/-- Body of the row loop of `read_builds_csv`. -/
def buildRowStep (header : List String) (r : ReadBuildsResult)
    (row : List String) : ReadBuildsResult :=
  if !rowAnyTruthy header row then r
  else if !truthyOpt (dictGet header row "Build ID") ||
      !truthyOpt (dictGet header row "VCS Root ID") then
    { r with warned := r.warned ++ [row] }
  else
    { r with data := r.data ++ [{
        build_id := (dictGet header row "Build ID").getD ""
        vcs_root_id := (dictGet header row "VCS Root ID").getD "" }] }

/-- `read_builds_csv`, structured exactly like `read_projects_csv`. -/
def read_builds_csv (file : Option CsvFile) : ReadBuildsResult :=
  match file with
  | none => ⟨[], [], []⟩
  | some c =>
    let missing := missingFields requiredBuildFields c.header
    if !missing.isEmpty then ⟨[], missing, []⟩
    else c.rows.foldl (buildRowStep c.header) ⟨[], [], []⟩

/-! ### Mutating calls -/

/-- One HTTP call issued by the update/assign paths. -/
inductive NetOp where
  | getVcsRoot (vcs_root_id : String)
  | putVcsRootProperties (vcs_root_id : String) (props : List VcsProperty)
  | getBuildType (build_id : String)
  | getVcsRootEntries (build_id : String)
  | postVcsRootEntry (build_id vcs_root_id : String)
deriving DecidableEq, Repr

/-- Body of the `for prop in property_list` loop of
`update_vcs_root_properties`.  State: `(property_list, updated,
url_found, branch_found)`. -/
def updatePropStep (fetch_url default_branch : Option String)
    (st : List VcsProperty × Bool × Bool × Bool) (p : VcsProperty) :
    List VcsProperty × Bool × Bool × Bool :=
  if p.name == "url" && fetch_url.isSome then
    (st.1 ++ [{ p with value := fetch_url.getD p.value }], true, true, st.2.2.2)
  else if p.name == "branch" && default_branch.isSome then
    (st.1 ++ [{ p with value := default_branch.getD p.value }], true, st.2.2.1, true)
  else
    (st.1 ++ [p], st.2.1, st.2.2.1, st.2.2.2)

/-- `update_vcs_root_properties`: no-op success when both arguments are
`None`; hard failure when the root's GET 404s; otherwise update the
`url` / `branch` properties in place, append them when absent, and PUT
the full list back.  Returns `(result, trace of HTTP calls, new server
state)`. -/
def update_vcs_root_properties (env : Env) (vcs_root_id : String)
    (fetch_url default_branch : Option String) : Bool × List NetOp × Env :=
  if fetch_url.isNone && default_branch.isNone then
    (true, [], env)
  else
    match env.vcsRoots vcs_root_id with
    | none => (false, [.getVcsRoot vcs_root_id], env)
    | some vcs_root_data =>
      let property_list := vcs_root_data.properties
      let st0 := property_list.foldl (updatePropStep fetch_url default_branch)
        ([], false, false, false)
      let st1 := if fetch_url.isSome && !st0.2.2.1 then
          (st0.1 ++ [⟨"url", fetch_url.getD ""⟩], true, st0.2.2.1, st0.2.2.2)
        else st0
      let st2 := if default_branch.isSome && !st1.2.2.2 then
          (st1.1 ++ [⟨"branch", default_branch.getD ""⟩], true, st1.2.2.1, st1.2.2.2)
        else st1
      if !st2.2.1 then (true, [.getVcsRoot vcs_root_id], env)
      else
        (true, [.getVcsRoot vcs_root_id, .putVcsRootProperties vcs_root_id st2.1],
          { env with vcsRoots := fun r =>
              if r = vcs_root_id then some { vcs_root_data with properties := st2.1 }
              else env.vcsRoots r })

/-- The property list §4.4 of the specification says gets written back:
the fetched list with the `url` / `branch` entries updated in place when
present-and-requested, appended when requested-but-absent, all other
properties untouched. -/
def specPutProperties (props : List VcsProperty)
    (fetch_url default_branch : Option String) : List VcsProperty :=
  let updated := props.map (fun p =>
    if p.name == "url" && fetch_url.isSome then
      { p with value := fetch_url.getD p.value }
    else if p.name == "branch" && default_branch.isSome then
      { p with value := default_branch.getD p.value }
    else p)
  let withUrl := if fetch_url.isSome && !props.any (fun p => p.name == "url") then
      updated ++ [⟨"url", fetch_url.getD ""⟩]
    else updated
  if default_branch.isSome && !props.any (fun p => p.name == "branch") then
    withUrl ++ [⟨"branch", default_branch.getD ""⟩]
  else withUrl

/-- `assign_vcs_root_to_build`: 404 on the build or the root is a
failure; an entry already naming the root is a no-op success; otherwise a
POST attaches the root, which the server records by appending an entry. -/
def assign_vcs_root_to_build (env : Env) (build_id vcs_root_id : String) :
    Bool × List NetOp × Env :=
  if !env.buildTypeExists build_id then
    (false, [.getBuildType build_id], env)
  else if (env.vcsRoots vcs_root_id).isNone then
    (false, [.getBuildType build_id, .getVcsRoot vcs_root_id], env)
  else
    let vcs_entries := env.vcsRootEntries build_id
    if vcs_entries.any (fun e => e.vcsRootId == some vcs_root_id) then
      (true, [.getBuildType build_id, .getVcsRoot vcs_root_id,
        .getVcsRootEntries build_id], env)
    else
      (true, [.getBuildType build_id, .getVcsRoot vcs_root_id,
        .getVcsRootEntries build_id, .postVcsRootEntry build_id vcs_root_id],
        { env with vcsRootEntries := fun b =>
            if b = build_id then vcs_entries ++ [⟨some vcs_root_id⟩]
            else env.vcsRootEntries b })

/-- Recognises the attachment (POST) call in a trace. -/
def isPostEntry : NetOp → Bool
  | .postVcsRootEntry _ _ => true
  | _ => false

/-! ### Update orchestration -/

/-- Body of the `for project in projects_data` loop of
`update_projects_from_csv`.  State: `(success_count, failure_count,
trace, server)`.  A row whose `VCS Root ID` is the literal string
`"None"` is skipped before any call and counted in neither tally. -/
def processProjectRow (st : Nat × Nat × List NetOp × Env)
    (row : ProjectUpdateRow) : Nat × Nat × List NetOp × Env :=
  if row.vcs_root_id = "None" then st
  else
    let r := update_vcs_root_properties st.2.2.2 row.vcs_root_id
      row.fetch_url row.default_branch
    if r.1 then (st.1 + 1, st.2.1, st.2.2.1 ++ r.2.1, r.2.2)
    else (st.1, st.2.1 + 1, st.2.2.1 ++ r.2.1, r.2.2)

/-- `update_projects_from_csv`: read the CSV, bail out on empty data,
otherwise process each row, tallying successes and failures. -/
def update_projects_from_csv (env : Env) (file : Option CsvFile) :
    Nat × Nat × List NetOp × Env :=
  let projects_data := (read_projects_csv file).data
  if projects_data.isEmpty then (0, 0, [], env)
  else projects_data.foldl processProjectRow (0, 0, [], env)

/-- Body of the `for build in builds_data` loop of
`update_builds_from_csv`; same sentinel skip. -/
def processBuildRow (st : Nat × Nat × List NetOp × Env)
    (row : BuildUpdateRow) : Nat × Nat × List NetOp × Env :=
  if row.vcs_root_id = "None" then st
  else
    let r := assign_vcs_root_to_build st.2.2.2 row.build_id row.vcs_root_id
    if r.1 then (st.1 + 1, st.2.1, st.2.2.1 ++ r.2.1, r.2.2)
    else (st.1, st.2.1 + 1, st.2.2.1 ++ r.2.1, r.2.2)

/-- `update_builds_from_csv`. -/
def update_builds_from_csv (env : Env) (file : Option CsvFile) :
    Nat × Nat × List NetOp × Env :=
  let builds_data := (read_builds_csv file).data
  if builds_data.isEmpty then (0, 0, [], env)
  else builds_data.foldl processBuildRow (0, 0, [], env)

/-! ### Orchestrator -/

/-- The argparse result: four mode flags and the optional input file. -/
structure Args where
  builds : Bool
  projects : Bool
  update_projects : Bool
  update_builds : Bool
  input_file : Option String
deriving DecidableEq, Repr

/-- What one process run amounts to. -/
inductive RunOutcome where
  | fatalToken
  | fatalInput
  | exported (rows : List (List String))
  | updated (success_count failure_count : Nat) (trace : List NetOp) (env' : Env)

/-- Process exit status of an outcome: the two fatal startup errors call
`sys.exit(1)`; every completed run exits 0. -/
def exitCode : RunOutcome → Nat
  | .fatalToken => 1
  | .fatalInput => 1
  | .exported _ => 0
  | .updated _ _ _ _ => 0

/-- `if not ACCESS_TOKEN:` — an unset or empty token is falsy. -/
def tokenFalsy : Option String → Bool
  | none => true
  | some s => s.isEmpty

/-- The whole process: the module-level token check (before any request),
then `main` — the input-file usage check, then dispatch to one of the
four modes. -/
def runMain (token : Option String) (args : Args)
    (files : String → Option CsvFile) (env : Env) : RunOutcome :=
  if tokenFalsy token then .fatalToken
  else if (args.update_projects || args.update_builds) &&
      !truthyOpt args.input_file then .fatalInput
  else if !(args.update_projects || args.update_builds) then
    if args.projects then .exported (projects_csv_output env)
    else .exported (builds_csv_output env)
  else if args.update_projects then
    let r := update_projects_from_csv env (files (args.input_file.getD ""))
    .updated r.1 r.2.1 r.2.2.1 r.2.2.2
  else
    let r := update_builds_from_csv env (files (args.input_file.getD ""))
    .updated r.1 r.2.1 r.2.2.1 r.2.2.2

/-! ### Concrete witness data -/

/-- A small concrete server used by the witness instantiations. -/
def envW : Env :=
  { projects := [⟨"P1", "Proj"⟩]
    buildTypes := fun pid => if pid = "P1" then [⟨"B1", "Build"⟩] else []
    vcsRootEntries := fun bid => if bid = "B2" then [⟨some "V1"⟩] else []
    vcsRoots := fun rid => if rid = "V1" then
        some ⟨some "RepoA", [⟨"url", "git@host:a.git"⟩, ⟨"taco", "x"⟩]⟩
      else none
    buildTypeExists := fun bid => bid = "B1" || bid = "B2" }

/-- A project-update CSV whose header is missing two required columns. -/
def csvMissingProj : CsvFile :=
  ⟨["Project ID", "Project Name"], [["P1", "Proj"]]⟩

/-- A build-assign CSV whose header is missing one required column. -/
def csvMissingBuild : CsvFile :=
  ⟨["Build ID"], [["B1"]]⟩

/-- A well-formed project-update CSV exercising all three row kinds:
a kept row, an all-empty row and a row missing its `VCS Root ID`. -/
def csvGoodProj : CsvFile :=
  ⟨["Project ID", "Project Name", "VCS Root ID", "VCS Root Name",
      "Fetch URL", "Default Branch"],
    [["P1", "Proj", "V1", "RepoA", "git@host:a.git", "main"],
     ["", "", "", "", "", ""],
     ["P2", "Proj2", "", "", "u", "b"]]⟩

/-- A well-formed build-assign CSV with the same three row kinds. -/
def csvGoodBuild : CsvFile :=
  ⟨["Build ID", "Build Name", "VCS Root ID", "VCS Root Name"],
    [["B1", "Build", "V1", "RepoA"],
     ["", "", "", ""],
     ["B2", "Build2", "", ""]]⟩

/-! ### Set-insertion and fold characterisation lemmas -/

theorem mem_setAdd {α : Type} [DecidableEq α] (s : List α) (x t : α) :
    t ∈ setAdd s x ↔ t ∈ s ∨ t = x := by
  unfold setAdd
  split
  · constructor
    · exact Or.inl
    · rintro (h | rfl) <;> assumption
  · simp [List.mem_append]

theorem setAdd_nodup {α : Type} [DecidableEq α] (s : List α) (x : α)
    (h : s.Nodup) : (setAdd s x).Nodup := by
  unfold setAdd
  split
  · exact h
  · simpa [List.nodup_append] using ⟨h, by assumption⟩

/-- Membership in a fold whose step only ever inserts elements described
by `Q`. -/
theorem mem_foldl_of_stepIff {α β : Type} (step : List α → β → List α)
    (Q : β → α → Prop)
    (hstep : ∀ acc x t, t ∈ step acc x ↔ t ∈ acc ∨ Q x t) :
    ∀ (l : List β) (acc : List α) (t : α),
      t ∈ l.foldl step acc ↔ t ∈ acc ∨ ∃ x ∈ l, Q x t
  | [], acc, t => by simp
  | x :: l, acc, t => by
    rw [List.foldl_cons, mem_foldl_of_stepIff step Q hstep l (step acc x) t,
      hstep]
    simp only [List.mem_cons]
    constructor
    · rintro ((h | h) | ⟨y, hy, hQ⟩)
      · exact Or.inl h
      · exact Or.inr ⟨x, Or.inl rfl, h⟩
      · exact Or.inr ⟨y, Or.inr hy, hQ⟩
    · rintro (h | ⟨y, (rfl | hy), hQ⟩)
      · exact Or.inl (Or.inl h)
      · exact Or.inl (Or.inr hQ)
      · exact Or.inr ⟨y, hy, hQ⟩

/-- A fold whose step preserves duplicate-freeness yields a
duplicate-free list. -/
theorem nodup_foldl_of_step {α β : Type} (step : List α → β → List α)
    (hstep : ∀ acc x, acc.Nodup → (step acc x).Nodup) :
    ∀ (l : List β) (acc : List α), acc.Nodup → (l.foldl step acc).Nodup
  | [], _, h => h
  | x :: l, acc, h => by
    rw [List.foldl_cons]
    exact nodup_foldl_of_step step hstep l (step acc x) (hstep acc x h)

/-- Characterisation of a fold over a `(set, flag)` pair whose step inserts
elements described by `Q` and ors the flag with `F`. -/
theorem pair_foldl_char {α β : Type} (step : List α × Bool → β → List α × Bool)
    (Q : β → α → Prop) (F : β → Bool)
    (hmem : ∀ st x t, t ∈ (step st x).1 ↔ t ∈ st.1 ∨ Q x t)
    (hflag : ∀ st x, (step st x).2 = (st.2 || F x)) :
    ∀ (l : List β) (st : List α × Bool),
      (∀ t, t ∈ (l.foldl step st).1 ↔ t ∈ st.1 ∨ ∃ x ∈ l, Q x t)
      ∧ (l.foldl step st).2 = (st.2 || l.any F)
  | [], st => by simp
  | x :: l, st => by
    have ih := pair_foldl_char step Q F hmem hflag l (step st x)
    constructor
    · intro t
      rw [List.foldl_cons, ih.1 t, hmem]
      simp only [List.mem_cons]
      constructor
      · rintro ((h | h) | ⟨y, hy, hQ⟩)
        · exact Or.inl h
        · exact Or.inr ⟨x, Or.inl rfl, h⟩
        · exact Or.inr ⟨y, Or.inr hy, hQ⟩
      · rintro (h | ⟨y, (rfl | hy), hQ⟩)
        · exact Or.inl (Or.inl h)
        · exact Or.inl (Or.inr hQ)
        · exact Or.inr ⟨y, hy, hQ⟩
    · rw [List.foldl_cons, ih.2, hflag]
      simp [Bool.or_assoc]

/-- Duplicate-freeness for folds over a `(set, flag)` pair. -/
theorem pair_foldl_nodup {α β : Type} (step : List α × Bool → β → List α × Bool)
    (hstep : ∀ st x, st.1.Nodup → (step st x).1.Nodup) :
    ∀ (l : List β) (st : List α × Bool), st.1.Nodup → ((l.foldl step st).1).Nodup
  | [], _, h => h
  | x :: l, st, h => by
    rw [List.foldl_cons]
    exact pair_foldl_nodup step hstep l (step st x) (hstep st x h)

/-! ### Builds-view aggregator characterisation (claim C1) -/

theorem buildEntryStep_mem (env : Env) (build_id build_name : String) :
    ∀ (acc : List BuildTuple) (entry : VcsRootEntry) (t : BuildTuple),
      t ∈ buildEntryStep env build_id build_name acc entry ↔
        t ∈ acc ∨ buildEntryTuple env build_id build_name entry = some t := by
  intro acc entry t
  unfold buildEntryStep buildEntryTuple
  by_cases h1 : truthyOpt entry.vcsRootId
  · simp only [h1, if_true]
    by_cases h2 :
        truthyOpt (get_vcs_root_details env (entry.vcsRootId.getD "")).1
    · simp [h2, mem_setAdd, eq_comm]
    · simp [h2]
  · simp [h1]

theorem buildEntryStep_nodup (env : Env) (build_id build_name : String)
    (acc : List BuildTuple) (entry : VcsRootEntry) (h : acc.Nodup) :
    (buildEntryStep env build_id build_name acc entry).Nodup := by
  unfold buildEntryStep
  by_cases h1 : truthyOpt entry.vcsRootId
  · simp only [h1, if_true]
    by_cases h2 :
        truthyOpt (get_vcs_root_details env (entry.vcsRootId.getD "")).1
    · simp only [h2, if_true]
      exact setAdd_nodup _ _ h
    · simpa [h2] using h
  · simpa [h1] using h

theorem buildTypeStep_mem (env : Env) :
    ∀ (acc : List BuildTuple) (build_type : BuildType) (t : BuildTuple),
      t ∈ buildTypeStep env acc build_type ↔
        t ∈ acc ∨
          ((env.vcsRootEntries build_type.id = [] ∧
              t = (build_type.id, build_type.name, "No VCS Root", "None"))
            ∨ ∃ e ∈ env.vcsRootEntries build_type.id,
                buildEntryTuple env build_type.id build_type.name e = some t) := by
  intro acc build_type t
  unfold buildTypeStep
  by_cases h1 : (env.vcsRootEntries build_type.id).isEmpty
  · rw [List.isEmpty_iff] at h1
    simp [h1, mem_setAdd, eq_comm]
  · rw [List.isEmpty_iff] at h1
    simp only [List.isEmpty_iff, h1, if_false,
      mem_foldl_of_stepIff _ _ (buildEntryStep_mem env build_type.id build_type.name)]
    tauto

theorem buildTypeStep_nodup (env : Env) (acc : List BuildTuple)
    (build_type : BuildType) (h : acc.Nodup) :
    (buildTypeStep env acc build_type).Nodup := by
  unfold buildTypeStep
  by_cases h1 : (env.vcsRootEntries build_type.id).isEmpty
  · simp only [h1, if_true]
    exact setAdd_nodup _ _ h
  · simp only [h1, if_false]
    exact nodup_foldl_of_step _
      (buildEntryStep_nodup env build_type.id build_type.name) _ _ h

theorem buildProjectStep_mem (env : Env) :
    ∀ (acc : List BuildTuple) (project : Project) (t : BuildTuple),
      t ∈ buildProjectStep env acc project ↔
        t ∈ acc ∨
          ∃ b ∈ env.buildTypes project.id,
            ((env.vcsRootEntries b.id = [] ∧
                t = (b.id, b.name, "No VCS Root", "None"))
              ∨ ∃ e ∈ env.vcsRootEntries b.id,
                  buildEntryTuple env b.id b.name e = some t) := by
  intro acc project t
  unfold buildProjectStep
  exact mem_foldl_of_stepIff _ _ (buildTypeStep_mem env) _ acc t

/-- Claim C1: membership in the builds aggregate is exactly: one tuple per
VCS root entry that resolves to a truthy root name (via
`buildEntryTuple`), plus, for a build type whose entry list is empty, the
single sentinel tuple `("No VCS Root", "None")`; the result is
duplicate-free (set semantics), so the sentinel appears exactly once per
entry-less build type and resolved entries of a build type with entries
contribute no sentinel. -/
theorem c1_build_details_characterization (env : Env) :
    (∀ t : BuildTuple,
      t ∈ get_all_build_details env ↔
        ∃ p ∈ env.projects, ∃ b ∈ env.buildTypes p.id,
          ((env.vcsRootEntries b.id = [] ∧
              t = (b.id, b.name, "No VCS Root", "None"))
            ∨ ∃ e ∈ env.vcsRootEntries b.id,
                buildEntryTuple env b.id b.name e = some t))
    ∧ (get_all_build_details env).Nodup := by
  constructor
  · intro t
    unfold get_all_build_details
    rw [mem_foldl_of_stepIff _ _ (buildProjectStep_mem env)]
    simp
  · exact nodup_foldl_of_step _
      (fun acc p h => nodup_foldl_of_step _ (buildTypeStep_nodup env) _ acc h)
      env.projects [] List.nodup_nil

/-! ### Projects-view aggregator characterisation (claim C2) -/

theorem projectEntryStep_mem (env : Env) (project_id project_name : String) :
    ∀ (st : List ProjectTuple × Bool) (entry : VcsRootEntry) (t : ProjectTuple),
      t ∈ (projectEntryStep env project_id project_name st entry).1 ↔
        t ∈ st.1 ∨ projectEntryTuple env project_id project_name entry = some t := by
  intro st entry t
  unfold projectEntryStep projectEntryTuple
  by_cases h1 : truthyOpt entry.vcsRootId
  · simp only [h1, if_true]
    by_cases h2 :
        truthyOpt (get_vcs_root_details env (entry.vcsRootId.getD "")).1
    · simp [h2, mem_setAdd, eq_comm]
    · simp [h2]
  · simp [h1]

theorem projectEntryStep_flag (env : Env) (project_id project_name : String) :
    ∀ (st : List ProjectTuple × Bool) (entry : VcsRootEntry),
      (projectEntryStep env project_id project_name st entry).2 =
        (st.2 || (projectEntryTuple env project_id project_name entry).isSome) := by
  intro st entry
  unfold projectEntryStep projectEntryTuple
  by_cases h1 : truthyOpt entry.vcsRootId
  · simp only [h1, if_true]
    by_cases h2 :
        truthyOpt (get_vcs_root_details env (entry.vcsRootId.getD "")).1
    · simp [h2]
    · simp [h2]
  · simp [h1]

theorem projectEntryStep_nodup (env : Env) (project_id project_name : String)
    (st : List ProjectTuple × Bool) (entry : VcsRootEntry) (h : st.1.Nodup) :
    (projectEntryStep env project_id project_name st entry).1.Nodup := by
  unfold projectEntryStep
  by_cases h1 : truthyOpt entry.vcsRootId
  · simp only [h1, if_true]
    by_cases h2 :
        truthyOpt (get_vcs_root_details env (entry.vcsRootId.getD "")).1
    · simp only [h2, if_true]
      exact setAdd_nodup _ _ h
    · simpa [h2] using h
  · simpa [h1] using h

theorem projectBuildTypeStep_mem (env : Env) (project_id project_name : String) :
    ∀ (st : List ProjectTuple × Bool) (build_type : BuildType) (t : ProjectTuple),
      t ∈ (projectBuildTypeStep env project_id project_name st build_type).1 ↔
        t ∈ st.1 ∨ ∃ e ∈ env.vcsRootEntries build_type.id,
          projectEntryTuple env project_id project_name e = some t := by
  intro st build_type t
  unfold projectBuildTypeStep
  exact (pair_foldl_char _ _ _
    (projectEntryStep_mem env project_id project_name)
    (projectEntryStep_flag env project_id project_name) _ st).1 t

theorem projectBuildTypeStep_flag (env : Env) (project_id project_name : String) :
    ∀ (st : List ProjectTuple × Bool) (build_type : BuildType),
      (projectBuildTypeStep env project_id project_name st build_type).2 =
        (st.2 || (env.vcsRootEntries build_type.id).any
          (fun e => (projectEntryTuple env project_id project_name e).isSome)) := by
  intro st build_type
  unfold projectBuildTypeStep
  exact (pair_foldl_char _ _ _
    (projectEntryStep_mem env project_id project_name)
    (projectEntryStep_flag env project_id project_name) _ st).2


theorem projectStep_mem (env : Env) :
    ∀ (acc : List ProjectTuple) (project : Project) (t : ProjectTuple),
      t ∈ projectStep env acc project ↔
        t ∈ acc ∨
          ((∃ b ∈ env.buildTypes project.id, ∃ e ∈ env.vcsRootEntries b.id,
              projectEntryTuple env project.id project.name e = some t)
            ∨ ((∀ b ∈ env.buildTypes project.id, ∀ e ∈ env.vcsRootEntries b.id,
                  projectEntryTuple env project.id project.name e = none)
                ∧ t = (project.id, project.name, "No VCS Root", "None",
                    some "None", some "None"))) := by
  intro acc project t
  have hchar := pair_foldl_char
    (projectBuildTypeStep env project.id project.name)
    (fun b u => ∃ e ∈ env.vcsRootEntries b.id,
      projectEntryTuple env project.id project.name e = some u)
    (fun b => (env.vcsRootEntries b.id).any
      (fun e => (projectEntryTuple env project.id project.name e).isSome))
    (projectBuildTypeStep_mem env project.id project.name)
    (projectBuildTypeStep_flag env project.id project.name)
    (env.buildTypes project.id) (acc, false)
  simp only [projectStep]
  by_cases hf : ((env.buildTypes project.id).foldl
      (projectBuildTypeStep env project.id project.name) (acc, false)).2
  · rw [if_pos hf, hchar.1 t]
    have hany : ((env.buildTypes project.id).any
        (fun b => (env.vcsRootEntries b.id).any
          (fun e => (projectEntryTuple env project.id project.name e).isSome))) = true := by
      have h2 := hchar.2
      rw [hf] at h2
      simpa using h2.symm
    rw [List.any_eq_true] at hany
    obtain ⟨b, hb, hbany⟩ := hany
    rw [List.any_eq_true] at hbany
    obtain ⟨e, he, hesome⟩ := hbany
    constructor
    · rintro (h | h)
      · exact Or.inl h
      · exact Or.inr (Or.inl h)
    · rintro (h | (h | ⟨hall, rfl⟩))
      · exact Or.inl h
      · exact Or.inr h
      · rw [hall b hb e he] at hesome
        simp at hesome
  · have hfalse : ((env.buildTypes project.id).foldl
        (projectBuildTypeStep env project.id project.name) (acc, false)).2 = false :=
      Bool.eq_false_iff.mpr hf
    have hnone : ∀ b ∈ env.buildTypes project.id,
        ∀ e ∈ env.vcsRootEntries b.id,
          projectEntryTuple env project.id project.name e = none := by
      intro b hb e he
      cases hcase : projectEntryTuple env project.id project.name e with
      | none => rfl
      | some u =>
        exfalso
        apply hf
        rw [hchar.2]
        have : ((env.buildTypes project.id).any
            (fun b => (env.vcsRootEntries b.id).any
              (fun e => (projectEntryTuple env project.id project.name e).isSome))) = true :=
          List.any_eq_true.mpr ⟨b, hb, List.any_eq_true.mpr ⟨e, he, by rw [hcase]; rfl⟩⟩
        rw [this]
        simp
    rw [if_neg hf, mem_setAdd, hchar.1 t]
    constructor
    · rintro ((h | ⟨b, hb, e, he, ht⟩) | rfl)
      · exact Or.inl h
      · rw [hnone b hb e he] at ht
        exact absurd ht (by simp)
      · exact Or.inr (Or.inr ⟨hnone, rfl⟩)
    · rintro (h | (⟨b, hb, e, he, ht⟩ | ⟨hall, rfl⟩))
      · exact Or.inl (Or.inl h)
      · rw [hnone b hb e he] at ht
        exact absurd ht (by simp)
      · exact Or.inr rfl

theorem projectStep_nodup (env : Env) (acc : List ProjectTuple)
    (project : Project) (h : acc.Nodup) :
    (projectStep env acc project).Nodup := by
  simp only [projectStep]
  have hfold : (((env.buildTypes project.id).foldl
      (projectBuildTypeStep env project.id project.name) (acc, false)).1).Nodup := by
    apply pair_foldl_nodup
    · intro st b hst
      exact pair_foldl_nodup _
        (projectEntryStep_nodup env project.id project.name) _ st hst
    · exact h
  by_cases hf : ((env.buildTypes project.id).foldl
      (projectBuildTypeStep env project.id project.name) (acc, false)).2
  · rwa [if_pos hf]
  · rw [if_neg hf]
    exact setAdd_nodup _ _ hfold

/-- Claim C2: membership in the projects aggregate is exactly: one tuple per
distinct `(project, resolved root)` combination coming from some VCS root
entry of some build type of the project (via `projectEntryTuple`), plus the
single sentinel tuple `("No VCS Root", "None", "None", "None")` for a
project none of whose build types' entries resolved to a tuple.  In
particular a project where no build type has any entries gets exactly the
sentinel, and the sentinel is suppressed as soon as any one build type
yields a tuple, even if other build types of the same project have no
entries.  The result is duplicate-free (set semantics). -/
theorem c2_projects_view_characterization (env : Env) :
    (∀ t : ProjectTuple,
      t ∈ get_all_projects_with_vcs_roots env ↔
        ∃ p ∈ env.projects,
          ((∃ b ∈ env.buildTypes p.id, ∃ e ∈ env.vcsRootEntries b.id,
              projectEntryTuple env p.id p.name e = some t)
            ∨ ((∀ b ∈ env.buildTypes p.id, ∀ e ∈ env.vcsRootEntries b.id,
                  projectEntryTuple env p.id p.name e = none)
                ∧ t = (p.id, p.name, "No VCS Root", "None", some "None", some "None"))))
    ∧ (get_all_projects_with_vcs_roots env).Nodup := by
  constructor
  · intro t
    unfold get_all_projects_with_vcs_roots
    rw [mem_foldl_of_stepIff _ _ (projectStep_mem env)]
    simp
  · exact nodup_foldl_of_step _ (projectStep_nodup env) env.projects [] List.nodup_nil

/-! ### Export ordering (claim C3) -/

theorem tupleLe_iff_toLex (a b : BuildTuple) :
    tupleLe a b = true ↔ toLexTuple a ≤ toLexTuple b := by
  simp only [tupleLe, toLexTuple, Prod.Lex.le_iff, Bool.or_eq_true,
    Bool.and_eq_true, decide_eq_true_eq]

theorem tupleLe_trans (a b c : BuildTuple)
    (hab : tupleLe a b) (hbc : tupleLe b c) : tupleLe a c := by
  rw [tupleLe_iff_toLex] at hab hbc ⊢
  exact le_trans hab hbc

theorem tupleLe_total (a b : BuildTuple) : tupleLe a b || tupleLe b a := by
  rcases le_total (toLexTuple a) (toLexTuple b) with h | h
  · rw [Bool.or_eq_true, tupleLe_iff_toLex]
    exact Or.inl h
  · rw [Bool.or_eq_true, tupleLe_iff_toLex b a]
    exact Or.inr h

/-- Claim C3: the data rows of the builds export are the aggregated tuples
re-sorted ascending by Python tuple ordering — lexicographic string
comparison over `(build_id, build_name, vcs_root_name, vcs_root_id)`,
the root name compared before the root id — and each tuple is printed
with the id column before the name column. -/
theorem c3_builds_export_ordering (env : Env) :
    (sorted_build_details env).Pairwise (fun a b => tupleLe a b = true)
    ∧ (sorted_build_details env).Perm (get_all_build_details env)
    ∧ builds_csv_rows env = (sorted_build_details env).map
        (fun t => [t.1, t.2.1, t.2.2.2, t.2.2.1])
    ∧ ∀ a b : BuildTuple, tupleLe a b = true ↔
        (a.1 < b.1 ∨ (a.1 = b.1 ∧ (a.2.1 < b.2.1 ∨ (a.2.1 = b.2.1 ∧
          (a.2.2.1 < b.2.2.1 ∨ (a.2.2.1 = b.2.2.1 ∧ a.2.2.2 ≤ b.2.2.2)))))) := by
  refine ⟨?_, ?_, rfl, ?_⟩
  · exact List.sorted_mergeSort tupleLe_trans tupleLe_total _
  · exact List.mergeSort_perm _ _
  · intro a b
    simp only [tupleLe, Bool.or_eq_true, Bool.and_eq_true, decide_eq_true_eq]

/-! ### CSV header validation (claim C4) -/

/-- Claim C4: an input CSV whose header lacks at least one required column
yields an empty row sequence, and the reported missing-column list is
exactly the required columns absent from the header — every missing
column name is reported and no rows are processed; for both the
project-update reader and the build-assign reader. -/
theorem c4_missing_columns :
    (∀ c : CsvFile, (∃ f ∈ requiredProjectFields, f ∉ c.header) →
      (read_projects_csv (some c)).data = []
      ∧ (read_projects_csv (some c)).missing =
          requiredProjectFields.filter (fun f => !c.header.contains f)
      ∧ ∀ f ∈ requiredProjectFields, f ∉ c.header →
          f ∈ (read_projects_csv (some c)).missing)
    ∧ (∀ c : CsvFile, (∃ f ∈ requiredBuildFields, f ∉ c.header) →
      (read_builds_csv (some c)).data = []
      ∧ (read_builds_csv (some c)).missing =
          requiredBuildFields.filter (fun f => !c.header.contains f)
      ∧ ∀ f ∈ requiredBuildFields, f ∉ c.header →
          f ∈ (read_builds_csv (some c)).missing) := by
  constructor
  · intro c hmiss
    obtain ⟨f, hf, hnot⟩ := hmiss
    have hmem : f ∈ missingFields requiredProjectFields c.header := by
      rw [missingFields, List.mem_filter]
      exact ⟨hf, by simpa using hnot⟩
    have hne : missingFields requiredProjectFields c.header ≠ [] := by
      intro h0
      rw [h0] at hmem
      exact absurd hmem (List.not_mem_nil f)
    simp only [read_projects_csv]
    rw [if_pos (by simpa [List.isEmpty_iff] using hne)]
    refine ⟨rfl, rfl, ?_⟩
    intro g hg hgnot
    rw [missingFields, List.mem_filter]
    exact ⟨hg, by simpa using hgnot⟩
  · intro c hmiss
    obtain ⟨f, hf, hnot⟩ := hmiss
    have hmem : f ∈ missingFields requiredBuildFields c.header := by
      rw [missingFields, List.mem_filter]
      exact ⟨hf, by simpa using hnot⟩
    have hne : missingFields requiredBuildFields c.header ≠ [] := by
      intro h0
      rw [h0] at hmem
      exact absurd hmem (List.not_mem_nil f)
    simp only [read_builds_csv]
    rw [if_pos (by simpa [List.isEmpty_iff] using hne)]
    refine ⟨rfl, rfl, ?_⟩
    intro g hg hgnot
    rw [missingFields, List.mem_filter]
    exact ⟨hg, by simpa using hgnot⟩

/-- Witness for claim C4 at the concrete files `csvMissingProj` and
`csvMissingBuild`. -/
theorem c4_missing_columns_attests :
    ((∃ f ∈ requiredProjectFields, f ∉ csvMissingProj.header)
      ∧ (read_projects_csv (some csvMissingProj)).data = []
      ∧ (read_projects_csv (some csvMissingProj)).missing =
          ["VCS Root ID", "Fetch URL", "Default Branch"])
    ∧ ((∃ f ∈ requiredBuildFields, f ∉ csvMissingBuild.header)
      ∧ (read_builds_csv (some csvMissingBuild)).data = []
      ∧ (read_builds_csv (some csvMissingBuild)).missing = ["VCS Root ID"]) := by
  constructor
  · refine ⟨by decide, (c4_missing_columns.1 csvMissingProj (by decide)).1, ?_⟩
    rw [(c4_missing_columns.1 csvMissingProj (by decide)).2.1]
    decide
  · refine ⟨by decide, (c4_missing_columns.2 csvMissingBuild (by decide)).1, ?_⟩
    rw [(c4_missing_columns.2 csvMissingBuild (by decide)).2.1]
    decide

/-! ### CSV row filtering (claim C5) -/

theorem projectRowFold_char (header : List String) :
    ∀ (rows : List (List String)) (r : ReadProjectsResult),
      (rows.foldl (projectRowStep header) r).data =
        r.data ++ rows.filterMap (fun row =>
          if rowAnyTruthy header row
              && truthyOpt (dictGet header row "Project ID")
              && truthyOpt (dictGet header row "VCS Root ID") then
            some { project_id := (dictGet header row "Project ID").getD ""
                   vcs_root_id := (dictGet header row "VCS Root ID").getD ""
                   fetch_url := dictGet header row "Fetch URL"
                   default_branch := dictGet header row "Default Branch" }
          else none)
      ∧ (rows.foldl (projectRowStep header) r).warned =
        r.warned ++ rows.filter (fun row =>
          rowAnyTruthy header row
            && !(truthyOpt (dictGet header row "Project ID")
              && truthyOpt (dictGet header row "VCS Root ID")))
  | [], r => by simp
  | row :: rows, r => by
    have ih := projectRowFold_char header rows (projectRowStep header r row)
    rw [List.foldl_cons]
    by_cases h1 : rowAnyTruthy header row
    · by_cases h2 : truthyOpt (dictGet header row "Project ID")
      · by_cases h3 : truthyOpt (dictGet header row "VCS Root ID")
        · have hstep : projectRowStep header r row =
              { r with data := r.data ++ [{
                  project_id := (dictGet header row "Project ID").getD ""
                  vcs_root_id := (dictGet header row "VCS Root ID").getD ""
                  fetch_url := dictGet header row "Fetch URL"
                  default_branch := dictGet header row "Default Branch" }] } := by
            simp [projectRowStep, h1, h2, h3]
          rw [hstep] at ih ⊢
          refine ⟨?_, ?_⟩
          · rw [ih.1]
            simp [h1, h2, h3]
          · rw [ih.2]
            simp [h1, h2, h3]
        · have hstep : projectRowStep header r row =
              { r with warned := r.warned ++ [row] } := by
            simp [projectRowStep, h1, h2, h3]
          rw [hstep] at ih ⊢
          refine ⟨?_, ?_⟩
          · rw [ih.1]
            simp [h1, h2, h3]
          · rw [ih.2]
            simp [h1, h2, h3]
      · have hstep : projectRowStep header r row =
            { r with warned := r.warned ++ [row] } := by
          simp [projectRowStep, h1, h2]
        rw [hstep] at ih ⊢
        refine ⟨?_, ?_⟩
        · rw [ih.1]
          simp [h1, h2]
        · rw [ih.2]
          simp [h1, h2]
    · have hstep : projectRowStep header r row = r := by
        simp [projectRowStep, h1]
      rw [hstep] at ih ⊢
      refine ⟨?_, ?_⟩
      · rw [ih.1]
        simp [h1]
      · rw [ih.2]
        simp [h1]

theorem buildRowFold_char (header : List String) :
    ∀ (rows : List (List String)) (r : ReadBuildsResult),
      (rows.foldl (buildRowStep header) r).data =
        r.data ++ rows.filterMap (fun row =>
          if rowAnyTruthy header row
              && truthyOpt (dictGet header row "Build ID")
              && truthyOpt (dictGet header row "VCS Root ID") then
            some { build_id := (dictGet header row "Build ID").getD ""
                   vcs_root_id := (dictGet header row "VCS Root ID").getD "" }
          else none)
      ∧ (rows.foldl (buildRowStep header) r).warned =
        r.warned ++ rows.filter (fun row =>
          rowAnyTruthy header row
            && !(truthyOpt (dictGet header row "Build ID")
              && truthyOpt (dictGet header row "VCS Root ID")))
  | [], r => by simp
  | row :: rows, r => by
    have ih := buildRowFold_char header rows (buildRowStep header r row)
    rw [List.foldl_cons]
    by_cases h1 : rowAnyTruthy header row
    · by_cases h2 : truthyOpt (dictGet header row "Build ID")
      · by_cases h3 : truthyOpt (dictGet header row "VCS Root ID")
        · have hstep : buildRowStep header r row =
              { r with data := r.data ++ [{
                  build_id := (dictGet header row "Build ID").getD ""
                  vcs_root_id := (dictGet header row "VCS Root ID").getD "" }] } := by
            simp [buildRowStep, h1, h2, h3]
          rw [hstep] at ih ⊢
          refine ⟨?_, ?_⟩
          · rw [ih.1]
            simp [h1, h2, h3]
          · rw [ih.2]
            simp [h1, h2, h3]
        · have hstep : buildRowStep header r row =
              { r with warned := r.warned ++ [row] } := by
            simp [buildRowStep, h1, h2, h3]
          rw [hstep] at ih ⊢
          refine ⟨?_, ?_⟩
          · rw [ih.1]
            simp [h1, h2, h3]
          · rw [ih.2]
            simp [h1, h2, h3]
      · have hstep : buildRowStep header r row =
            { r with warned := r.warned ++ [row] } := by
          simp [buildRowStep, h1, h2]
        rw [hstep] at ih ⊢
        refine ⟨?_, ?_⟩
        · rw [ih.1]
          simp [h1, h2]
        · rw [ih.2]
          simp [h1, h2]
    · have hstep : buildRowStep header r row = r := by
        simp [buildRowStep, h1]
      rw [hstep] at ih ⊢
      refine ⟨?_, ?_⟩
      · rw [ih.1]
        simp [h1]
      · rw [ih.2]
        simp [h1]

/-- Claim C5: with a valid header, the returned row sequence is exactly the
input rows that are not all-empty and have truthy values in both required
identifier columns, in input order; an all-empty row is skipped silently
(appears in neither `data` nor `warned`), a row with a missing identifier
is skipped with a warning, and in both cases every later row is still
processed (the characterisation ranges over the whole row list, no
abort); for both readers. -/
theorem c5_row_filtering :
    (∀ c : CsvFile, missingFields requiredProjectFields c.header = [] →
      (read_projects_csv (some c)).data =
        c.rows.filterMap (fun row =>
          if rowAnyTruthy c.header row
              && truthyOpt (dictGet c.header row "Project ID")
              && truthyOpt (dictGet c.header row "VCS Root ID") then
            some { project_id := (dictGet c.header row "Project ID").getD ""
                   vcs_root_id := (dictGet c.header row "VCS Root ID").getD ""
                   fetch_url := dictGet c.header row "Fetch URL"
                   default_branch := dictGet c.header row "Default Branch" }
          else none)
      ∧ (read_projects_csv (some c)).warned =
        c.rows.filter (fun row =>
          rowAnyTruthy c.header row
            && !(truthyOpt (dictGet c.header row "Project ID")
              && truthyOpt (dictGet c.header row "VCS Root ID"))))
    ∧ (∀ c : CsvFile, missingFields requiredBuildFields c.header = [] →
      (read_builds_csv (some c)).data =
        c.rows.filterMap (fun row =>
          if rowAnyTruthy c.header row
              && truthyOpt (dictGet c.header row "Build ID")
              && truthyOpt (dictGet c.header row "VCS Root ID") then
            some { build_id := (dictGet c.header row "Build ID").getD ""
                   vcs_root_id := (dictGet c.header row "VCS Root ID").getD "" }
          else none)
      ∧ (read_builds_csv (some c)).warned =
        c.rows.filter (fun row =>
          rowAnyTruthy c.header row
            && !(truthyOpt (dictGet c.header row "Build ID")
              && truthyOpt (dictGet c.header row "VCS Root ID")))) := by
  constructor
  · intro c hvalid
    have hred : read_projects_csv (some c) =
        c.rows.foldl (projectRowStep c.header) ⟨[], [], []⟩ := by
      simp only [read_projects_csv]
      rw [if_neg (by simp [hvalid])]
    rw [hred]
    have hchar := projectRowFold_char c.header c.rows ⟨[], [], []⟩
    exact ⟨by rw [hchar.1]; simp, by rw [hchar.2]; simp⟩
  · intro c hvalid
    have hred : read_builds_csv (some c) =
        c.rows.foldl (buildRowStep c.header) ⟨[], [], []⟩ := by
      simp only [read_builds_csv]
      rw [if_neg (by simp [hvalid])]
    rw [hred]
    have hchar := buildRowFold_char c.header c.rows ⟨[], [], []⟩
    exact ⟨by rw [hchar.1]; simp, by rw [hchar.2]; simp⟩

/-- Witness for claim C5 at the concrete files `csvGoodProj` and
`csvGoodBuild`: one row kept, the all-empty row silently dropped, the
row missing its root id warned about. -/
theorem c5_row_filtering_attests :
    (missingFields requiredProjectFields csvGoodProj.header = []
      ∧ (read_projects_csv (some csvGoodProj)).data =
          [⟨"P1", "V1", some "git@host:a.git", some "main"⟩]
      ∧ (read_projects_csv (some csvGoodProj)).warned =
          [["P2", "Proj2", "", "", "u", "b"]])
    ∧ (missingFields requiredBuildFields csvGoodBuild.header = []
      ∧ (read_builds_csv (some csvGoodBuild)).data = [⟨"B1", "V1"⟩]
      ∧ (read_builds_csv (some csvGoodBuild)).warned =
          [["B2", "Build2", "", ""]]) := by
  constructor
  · refine ⟨by decide, ?_, ?_⟩
    · rw [(c5_row_filtering.1 csvGoodProj (by decide)).1]
      decide
    · rw [(c5_row_filtering.1 csvGoodProj (by decide)).2]
      decide
  · refine ⟨by decide, ?_, ?_⟩
    · rw [(c5_row_filtering.2 csvGoodBuild (by decide)).1]
      decide
    · rw [(c5_row_filtering.2 csvGoodBuild (by decide)).2]
      decide

/-! ### VCS root property updater (claims C6 and C7) -/

/-- Claim C6: `update_vcs_root_properties` with both `fetch_url` and
`default_branch` unset returns success immediately — the trace is empty
(no network read or write) and the server state is untouched. -/
theorem c6_update_both_unset_noop (env : Env) (vcs_root_id : String) :
    update_vcs_root_properties env vcs_root_id none none = (true, [], env) := rfl

theorem updatePropFold_char (fetch_url default_branch : Option String) :
    ∀ (props acc : List VcsProperty) (u uf bf : Bool),
      props.foldl (updatePropStep fetch_url default_branch) (acc, u, uf, bf) =
        (acc ++ props.map (fun p =>
            if p.name == "url" && fetch_url.isSome then
              { p with value := fetch_url.getD p.value }
            else if p.name == "branch" && default_branch.isSome then
              { p with value := default_branch.getD p.value }
            else p),
         u || props.any (fun p =>
            (p.name == "url" && fetch_url.isSome) ||
              (p.name == "branch" && default_branch.isSome)),
         uf || (fetch_url.isSome && props.any (fun p => p.name == "url")),
         bf || (default_branch.isSome && props.any (fun p => p.name == "branch")))
  | [], acc, u, uf, bf => by simp
  | p :: props, acc, u, uf, bf => by
    rw [List.foldl_cons]
    by_cases h1 : (p.name == "url" && fetch_url.isSome) = true
    · have hpu : p.name = "url" := by
        have := (Bool.and_eq_true _ _).mp h1
        simpa using this.1
      have hfu : fetch_url.isSome = true := ((Bool.and_eq_true _ _).mp h1).2
      have hstep : updatePropStep fetch_url default_branch (acc, u, uf, bf) p =
          (acc ++ [{ p with value := fetch_url.getD p.value }], true, true, bf) := by
        simp [updatePropStep, h1]
      rw [hstep, updatePropFold_char fetch_url default_branch props _ _ _ _]
      simp [h1, hpu, hfu, List.append_assoc]
    · by_cases h2 : (p.name == "branch" && default_branch.isSome) = true
      · have hpb : p.name = "branch" := by
          have := (Bool.and_eq_true _ _).mp h2
          simpa using this.1
        have hdb : default_branch.isSome = true := ((Bool.and_eq_true _ _).mp h2).2
        have hstep : updatePropStep fetch_url default_branch (acc, u, uf, bf) p =
            (acc ++ [{ p with value := default_branch.getD p.value }], true, uf, true) := by
          simp [updatePropStep, h1, h2]
        rw [hstep, updatePropFold_char fetch_url default_branch props _ _ _ _]
        have hnu : (p.name == "url") = false := by simp [hpb]
        simp [h1, h2, hpb, hdb, hnu, List.append_assoc]
      · have hstep : updatePropStep fetch_url default_branch (acc, u, uf, bf) p =
            (acc ++ [p], u, uf, bf) := by
          simp [updatePropStep, h1, h2]
        rw [hstep, updatePropFold_char fetch_url default_branch props _ _ _ _]
        have hcases := Bool.and_eq_true (p.name == "url") fetch_url.isSome
        have h1f : (p.name == "url" && fetch_url.isSome) = false :=
          Bool.eq_false_iff.mpr h1
        have h2f : (p.name == "branch" && default_branch.isSome) = false :=
          Bool.eq_false_iff.mpr h2
        have hufx : (fetch_url.isSome && ((p.name == "url") || props.any (fun q => q.name == "url"))) = (fetch_url.isSome && props.any (fun q => q.name == "url")) := by
          cases hc : (p.name == "url") with
          | false => simp [hc]
          | true => simp [hc, Bool.and_comm] at h1f ⊢; simp [h1f]
        have hbfx : (default_branch.isSome && ((p.name == "branch") || props.any (fun q => q.name == "branch"))) = (default_branch.isSome && props.any (fun q => q.name == "branch")) := by
          cases hc : (p.name == "branch") with
          | false => simp [hc]
          | true => simp [hc, Bool.and_comm] at h2f ⊢; simp [h2f]
        simp [h1f, h2f, List.append_assoc, Bool.and_or_distrib_left, hufx, hbfx]
        have hn1 : ¬(p.name = "url" ∧ fetch_url.isSome = true) := by
          simpa [Bool.and_eq_true] using h1
        have hn2 : ¬(p.name = "branch" ∧ default_branch.isSome = true) := by
          simpa [Bool.and_eq_true] using h2
        rw [if_neg hn1, if_neg hn2]

theorem mem_specPutProperties (props : List VcsProperty)
    (fetch_url default_branch : Option String) (p : VcsProperty)
    (hp : p ∈ props) (hnu : p.name ≠ "url") (hnb : p.name ≠ "branch") :
    p ∈ specPutProperties props fetch_url default_branch := by
  have hmem : p ∈ props.map (fun q =>
      if q.name == "url" && fetch_url.isSome then
        { q with value := fetch_url.getD q.value }
      else if q.name == "branch" && default_branch.isSome then
        { q with value := default_branch.getD q.value }
      else q) :=
    List.mem_map.mpr ⟨p, hp, by simp [hnu, hnb]⟩
  simp only [specPutProperties]
  split
  · split
    · exact List.mem_append_left _ (List.mem_append_left _ hmem)
    · exact List.mem_append_left _ hmem
  · split
    · exact List.mem_append_left _ hmem
    · exact hmem

/-- Claim C7: when the root exists and at least one of the two values is
set, the updater succeeds and PUTs back exactly the fetched property list
with the `url` / `branch` entries updated in place when present and
appended when absent (`specPutProperties`); every property named neither
`url` nor `branch` appears unchanged in the written list — nothing is
removed. -/
theorem c7_update_puts_full_property_list (env : Env) (vcs_root_id : String)
    (fetch_url default_branch : Option String) (vcs_root_data : VcsRootData)
    (hroot : env.vcsRoots vcs_root_id = some vcs_root_data)
    (hset : fetch_url.isSome = true ∨ default_branch.isSome = true) :
    (update_vcs_root_properties env vcs_root_id fetch_url default_branch).1 = true
    ∧ (update_vcs_root_properties env vcs_root_id fetch_url default_branch).2.1 =
        [.getVcsRoot vcs_root_id,
          .putVcsRootProperties vcs_root_id
            (specPutProperties vcs_root_data.properties fetch_url default_branch)]
    ∧ ∀ p ∈ vcs_root_data.properties, p.name ≠ "url" → p.name ≠ "branch" →
        p ∈ specPutProperties vcs_root_data.properties fetch_url default_branch := by
  refine ⟨?_, ?_, fun p hp hnu hnb =>
    mem_specPutProperties vcs_root_data.properties fetch_url default_branch p hp hnu hnb⟩
  all_goals {
    have hguard : (fetch_url.isNone && default_branch.isNone) = false := by
      cases fetch_url <;> cases default_branch <;> simp_all
    simp only [update_vcs_root_properties, hguard, hroot, Bool.false_eq_true,
      if_false]
    rw [updatePropFold_char fetch_url default_branch vcs_root_data.properties
      [] false false false]
    by_cases hfu : fetch_url.isSome = true
    · by_cases hau :
          (vcs_root_data.properties.any (fun p => p.name == "url")) = true
      · have hor : (vcs_root_data.properties.any (fun p =>
            p.name == "url" || p.name == "branch")) = true := by
          obtain ⟨x, hx, hxu⟩ := List.any_eq_true.mp hau
          exact List.any_eq_true.mpr ⟨x, hx, by simp [hxu]⟩
        by_cases hdb : default_branch.isSome = true
        · by_cases hab :
              (vcs_root_data.properties.any (fun p => p.name == "branch")) = true
          · simp [hfu, hau, hdb, hab, hor, specPutProperties]
          · simp [hfu, hau, hdb, Bool.eq_false_iff.mpr hab, hor, specPutProperties]
        · have hdbf : default_branch.isSome = false := Bool.eq_false_iff.mpr hdb
          simp [hfu, hau, hdbf, specPutProperties]
      · have hauf :
            (vcs_root_data.properties.any (fun p => p.name == "url")) = false :=
          Bool.eq_false_iff.mpr hau
        by_cases hdb : default_branch.isSome = true
        · by_cases hab :
              (vcs_root_data.properties.any (fun p => p.name == "branch")) = true
          · have hor : (vcs_root_data.properties.any (fun p =>
                p.name == "url" || p.name == "branch")) = true := by
              obtain ⟨x, hx, hxb⟩ := List.any_eq_true.mp hab
              exact List.any_eq_true.mpr ⟨x, hx, by simp [hxb]⟩
            simp [hfu, hauf, hdb, hab, hor, specPutProperties]
          · simp [hfu, hauf, hdb, Bool.eq_false_iff.mpr hab, specPutProperties]
        · have hdbf : default_branch.isSome = false := Bool.eq_false_iff.mpr hdb
          simp [hfu, hauf, hdbf, specPutProperties]
    · have hfuf : fetch_url.isSome = false := Bool.eq_false_iff.mpr hfu
      have hdb : default_branch.isSome = true := by
        rcases hset with h | h
        · exact absurd h hfu
        · exact h
      by_cases hab :
          (vcs_root_data.properties.any (fun p => p.name == "branch")) = true
      · simp [hfuf, hdb, hab, specPutProperties]
      · simp [hfuf, hdb, Bool.eq_false_iff.mpr hab, specPutProperties]
  }

/-- Witness for claim C7: updating root `V1` of `envW` (which has a `url`
property but no `branch` property) with a new URL and branch. -/
theorem c7_update_puts_full_property_list_attests :
    envW.vcsRoots "V1" =
      some ⟨some "RepoA", [⟨"url", "git@host:a.git"⟩, ⟨"taco", "x"⟩]⟩
    ∧ ((some "git@new" : Option String).isSome = true
        ∨ (some "dev" : Option String).isSome = true)
    ∧ (update_vcs_root_properties envW "V1" (some "git@new") (some "dev")).2.1 =
        [.getVcsRoot "V1",
          .putVcsRootProperties "V1"
            [⟨"url", "git@new"⟩, ⟨"taco", "x"⟩, ⟨"branch", "dev"⟩]] := by
  refine ⟨by decide, Or.inl rfl, ?_⟩
  rw [(c7_update_puts_full_property_list envW "V1" (some "git@new") (some "dev")
    ⟨some "RepoA", [⟨"url", "git@host:a.git"⟩, ⟨"taco", "x"⟩]⟩
    (by decide) (Or.inl rfl)).2.1]
  decide

/-! ### VCS root assignment idempotence (claim C8) -/

/-- Claim C8: once the build's entries contain the root id,
`assign_vcs_root_to_build` returns success with a read-only trace (no
attachment POST); consequently, starting from a state where the root is
not attached, calling it twice — the first call's attachment reflected in
the server state — succeeds both times and performs exactly one
attachment POST in total. -/
theorem c8_assign_idempotent (env : Env) (build_id vcs_root_id : String)
    (hbuild : env.buildTypeExists build_id = true)
    (hroot : (env.vcsRoots vcs_root_id).isSome = true) :
    (((env.vcsRootEntries build_id).any
        (fun e => e.vcsRootId == some vcs_root_id)) = true →
      assign_vcs_root_to_build env build_id vcs_root_id =
        (true, [.getBuildType build_id, .getVcsRoot vcs_root_id,
          .getVcsRootEntries build_id], env))
    ∧ (((env.vcsRootEntries build_id).any
        (fun e => e.vcsRootId == some vcs_root_id)) = false →
      (assign_vcs_root_to_build env build_id vcs_root_id).1 = true
      ∧ (assign_vcs_root_to_build
          (assign_vcs_root_to_build env build_id vcs_root_id).2.2
          build_id vcs_root_id).1 = true
      ∧ (((assign_vcs_root_to_build env build_id vcs_root_id).2.1 ++
          (assign_vcs_root_to_build
            (assign_vcs_root_to_build env build_id vcs_root_id).2.2
            build_id vcs_root_id).2.1).filter isPostEntry).length = 1) := by
  have hnn : (env.vcsRoots vcs_root_id).isNone = false := by
    cases henv : env.vcsRoots vcs_root_id with
    | none => rw [henv] at hroot; simp at hroot
    | some d => rfl
  constructor
  · intro hatt
    simp [assign_vcs_root_to_build, hbuild, hnn, hatt]
  · intro hnot
    refine ⟨?_, ?_, ?_⟩
    · simp [assign_vcs_root_to_build, hbuild, hnn, hnot]
    · simp [assign_vcs_root_to_build, hbuild, hnn, hnot]
    · simp [assign_vcs_root_to_build, hbuild, hnn, hnot, isPostEntry]

/-- Witness for claim C8 at `envW`: build `B1` exists, root `V1` exists
and is not attached to `B1`; the double call posts exactly once. -/
theorem c8_assign_idempotent_attests :
    envW.buildTypeExists "B1" = true
    ∧ (envW.vcsRoots "V1").isSome = true
    ∧ ((envW.vcsRootEntries "B1").any
        (fun e => e.vcsRootId == some "V1")) = false
    ∧ (assign_vcs_root_to_build envW "B1" "V1").1 = true
    ∧ (assign_vcs_root_to_build
        (assign_vcs_root_to_build envW "B1" "V1").2.2 "B1" "V1").1 = true
    ∧ (((assign_vcs_root_to_build envW "B1" "V1").2.1 ++
        (assign_vcs_root_to_build
          (assign_vcs_root_to_build envW "B1" "V1").2.2
          "B1" "V1").2.1).filter isPostEntry).length = 1 := by
  have h := (c8_assign_idempotent envW "B1" "V1" (by decide) (by decide)).2
    (by decide)
  exact ⟨by decide, by decide, by decide, h.1, h.2.1, h.2.2⟩

/-! ### Exit status (claim C9) -/

/-- Claim C9: the process exits nonzero exactly in the two fatal startup
cases — falsy `TEAMCITY_ACCESS_TOKEN` (checked first, before any
request) and an update mode selected without a truthy `--input-file`;
every other run, export or update, over any server and any input file,
completes with exit status 0 — per-row failures only show up in the
`updated` tally, never in the exit status. -/
theorem c9_exit_status (token : Option String) (args : Args)
    (files : String → Option CsvFile) (env : Env) :
    (exitCode (runMain token args files env) ≠ 0 ↔
      (tokenFalsy token = true ∨
        ((args.update_projects || args.update_builds) &&
          !truthyOpt args.input_file) = true))
    ∧ (tokenFalsy token = true → runMain token args files env = .fatalToken)
    ∧ (tokenFalsy token = false →
        ((args.update_projects || args.update_builds) &&
          !truthyOpt args.input_file) = true →
        runMain token args files env = .fatalInput) := by
  by_cases ht : tokenFalsy token = true
  · simp [runMain, ht, exitCode]
  · have htf : tokenFalsy token = false := Bool.eq_false_iff.mpr ht
    by_cases hu : ((args.update_projects || args.update_builds) &&
        !truthyOpt args.input_file) = true
    · simp [runMain, htf, hu, exitCode]
    · have huf : ((args.update_projects || args.update_builds) &&
          !truthyOpt args.input_file) = false := Bool.eq_false_iff.mpr hu
      by_cases hexp : (args.update_projects || args.update_builds) = true
      · have hin : truthyOpt args.input_file = true := by
          have h' := huf
          rw [hexp] at h'
          simpa using h'
        by_cases hup : args.update_projects = true
        · simp [runMain, htf, hexp, hup, hin, exitCode]
        · have hub : args.update_builds = true := by
            have h' := hexp
            rw [Bool.eq_false_iff.mpr hup] at h'
            simpa using h'
          simp [runMain, htf, hexp, Bool.eq_false_iff.mpr hup, hub, hin, exitCode]
      · by_cases hproj : args.projects = true
        · simp [runMain, htf, huf, hexp, hproj, exitCode]
        · simp [runMain, htf, huf, hexp, hproj, exitCode]

/-- Witness for claim C9: with a set token, update-builds mode and an
input file present, the run completes with exit 0 even though its single
processed row fails (root `VX` does not exist on `envW`), and the two
fatal configurations exit 1. -/
theorem c9_exit_status_attests :
    exitCode (runMain (some "tok")
      ⟨false, false, false, true, some "in.csv"⟩
      (fun _ => some ⟨["Build ID", "VCS Root ID"], [["B1", "VX"]]⟩) envW) = 0
    ∧ tokenFalsy none = true
    ∧ runMain none ⟨true, false, false, false, none⟩ (fun _ => none) envW =
        .fatalToken
    ∧ runMain (some "tok") ⟨false, false, true, false, none⟩ (fun _ => none)
        envW = .fatalInput
    ∧ (runMain (some "tok") ⟨false, false, false, true, some "in.csv"⟩
        (fun _ => some ⟨["Build ID", "VCS Root ID"], [["B1", "VX"]]⟩) envW
        |> fun r => match r with
          | .updated s f _ _ => (s, f)
          | _ => (0, 0)) = (0, 1) := by
  refine ⟨?_, rfl, ?_, ?_, ?_⟩
  · have h := (c9_exit_status (some "tok")
      ⟨false, false, false, true, some "in.csv"⟩
      (fun _ => some ⟨["Build ID", "VCS Root ID"], [["B1", "VX"]]⟩) envW).1
    by_contra hne
    rcases h.mp hne with h0 | h0
    · exact absurd h0 (by decide)
    · exact absurd h0 (by decide)
  · exact (c9_exit_status none ⟨true, false, false, false, none⟩
      (fun _ => none) envW).2.1 rfl
  · exact (c9_exit_status (some "tok") ⟨false, false, true, false, none⟩
      (fun _ => none) envW).2.2 rfl rfl
  · decide

/-! ### Sentinel rows in update modes (claim C10) -/

/-- Claim C10: in both update loops, a validated row whose `VCS Root ID`
is the literal string `"None"` is a pure skip: deleting it from the row
list changes nothing — no network call is traced for it and it is counted
in neither the success nor the failure tally. -/
theorem c10_sentinel_rows_skipped :
    (∀ (env : Env) (row : ProjectUpdateRow)
        (pre post : List ProjectUpdateRow), row.vcs_root_id = "None" →
      (pre ++ row :: post).foldl processProjectRow (0, 0, [], env) =
        (pre ++ post).foldl processProjectRow (0, 0, [], env))
    ∧ (∀ (env : Env) (row : BuildUpdateRow)
        (pre post : List BuildUpdateRow), row.vcs_root_id = "None" →
      (pre ++ row :: post).foldl processBuildRow (0, 0, [], env) =
        (pre ++ post).foldl processBuildRow (0, 0, [], env)) := by
  constructor
  · intro env row pre post h
    rw [List.foldl_append, List.foldl_append, List.foldl_cons]
    have hskip : ∀ st : Nat × Nat × List NetOp × Env,
        processProjectRow st row = st := by
      intro st
      simp [processProjectRow, h]
    rw [hskip]
  · intro env row pre post h
    rw [List.foldl_append, List.foldl_append, List.foldl_cons]
    have hskip : ∀ st : Nat × Nat × List NetOp × Env,
        processBuildRow st row = st := by
      intro st
      simp [processBuildRow, h]
    rw [hskip]

/-- Witness for claim C10: a sentinel project row and a sentinel build
row each leave the update fold exactly where it started. -/
theorem c10_sentinel_rows_skipped_attests :
    (ProjectUpdateRow.mk "P1" "None" (some "u") (some "b")).vcs_root_id = "None"
    ∧ ([] ++ ProjectUpdateRow.mk "P1" "None" (some "u") (some "b") :: []).foldl
        processProjectRow (0, 0, [], envW) =
      (([] : List ProjectUpdateRow) ++ []).foldl processProjectRow (0, 0, [], envW)
    ∧ (BuildUpdateRow.mk "B1" "None").vcs_root_id = "None"
    ∧ ([] ++ BuildUpdateRow.mk "B1" "None" :: []).foldl
        processBuildRow (0, 0, [], envW) =
      (([] : List BuildUpdateRow) ++ []).foldl processBuildRow (0, 0, [], envW) :=
  ⟨rfl,
   c10_sentinel_rows_skipped.1 envW (ProjectUpdateRow.mk "P1" "None" (some "u") (some "b")) [] [] rfl,
   rfl,
   c10_sentinel_rows_skipped.2 envW (BuildUpdateRow.mk "B1" "None") [] [] rfl⟩
